import Mathlib

/-!
Verification of the conversation-session and memory-persistence model of a
Streamlit conversational-assistant app (`app.py`).

The embedding below translates the relevant parts of `app.py`:
  * the in-memory message list (`st.session_state.messages`) and its mutations,
  * the SQLite backend (`sqlite_save_messages` / `sqlite_load_messages`),
  * the Supabase backend (`supabase_save_messages` / `supabase_load_messages`),
  * configuration resolution (`get_api_key` / `get_model`, URL construction),
  * the completion call's response handling (`call_openai_compatible`),
  * the chat input handlers (typed text and transcribe-and-send).

Strings are Lean `String`s; Python `str.strip()` and slicing are modelled on
the underlying character list so that everything kernel-computes.  Storage
tables are lists of rows in insertion order together with the next
autoincrement id; `ORDER BY id DESC` is modelled by an explicit insertion
sort on ids, descending.
-/

namespace Alisa

/-- One message turn, as the dictionaries `{"role": ..., "content": ...}`
held in `st.session_state.messages`. -/
structure Turn where
  role : String
  content : String
deriving DecidableEq, Repr

/-- One persisted row of the `messages` table (both backends use the same
schema: autoincrement `id`, `session_id`, `user_name`, `role`, `content`). -/
structure Row where
  id : Nat
  session_id : String
  user_name : String
  role : String
  content : String
deriving DecidableEq, Repr

/-- Projection used by both load paths (`SELECT role, content`). -/
def rowToTurn (r : Row) : Turn := ⟨r.role, r.content⟩

/-- A storage table: rows in insertion order plus the next autoincrement id. -/
structure Table where
  rows : List Row
  nextId : Nat
deriving DecidableEq, Repr

/-- The state of a table that has never been written. -/
def emptyTable : Table := ⟨[], 0⟩

/-- Python truthiness of an optional string (`if session_id:`):
`None` and `""` are falsy. -/
def truthy : Option String → Bool
  | none => false
  | some s => s ≠ ""

/-- Python `str.strip()`: drop whitespace characters from both ends. -/
def pyStrip (s : String) : String :=
  ⟨((s.data.dropWhile Char.isWhitespace).reverse.dropWhile Char.isWhitespace).reverse⟩

/-- Python `s[:n]`: the first `n` characters of `s`. -/
def pySlice (s : String) (n : Nat) : String := ⟨s.data.take n⟩

/-- Python `s.rstrip('/')`: drop trailing `'/'` characters. -/
def rstripSlash (s : String) : String :=
  ⟨(s.data.reverse.dropWhile (fun c => c == '/')).reverse⟩

/-- Python `s.startswith(p)`: the first `len(p)` characters of `s` equal `p`. -/
def pyStartsWith (s p : String) : Bool :=
  s.data.take p.data.length == p.data

/-! ### Storage backends -/

/-- One `INSERT INTO messages (session_id, user_name, role, content)` with the
autoincrement id assigned by the table. -/
def insertRow (t : Table) (session_id user_name role content : String) : Table :=
  ⟨t.rows ++ [⟨t.nextId, session_id, user_name, role, content⟩], t.nextId + 1⟩

/-- `sqlite_save_messages`: one insert per turn, skipping `system` turns
(`if m["role"] == "system": continue`). -/
def sqlite_save_messages (t : Table) (session_id user_name : String)
    (messages : List Turn) : Table :=
  messages.foldl
    (fun t m =>
      if m.role == "system" then t
      else insertRow t session_id user_name m.role m.content)
    t

/-- `supabase_save_messages`: builds the payload of non-`system` turns and
inserts the batch in one call; no-op when no client is configured. -/
def supabase_save_messages (client : Bool) (t : Table) (session_id user_name : String)
    (messages : List Turn) : Table :=
  if client then
    (messages.filter (fun m => m.role != "system")).foldl
      (fun t m => insertRow t session_id user_name m.role m.content) t
  else t

/-- Descending insertion into a list sorted by `id` descending. -/
def insertDesc (r : Row) : List Row → List Row
  | [] => [r]
  | x :: xs => if x.id ≤ r.id then r :: x :: xs else x :: insertDesc r xs

/-- `ORDER BY id DESC`: sort rows by `id`, largest first. -/
def orderByIdDesc (rows : List Row) : List Row :=
  rows.foldr insertDesc []

/-- The SQLite `WHERE` clause: `session_id=?` when `session_id` is truthy,
otherwise `user_name=?`.  Binding Python `None` produces SQL `NULL`, and
`user_name = NULL` holds of no row. -/
def sqliteWhere (session_id user_name : Option String) (r : Row) : Bool :=
  if truthy session_id then r.session_id == session_id.getD ""
  else
    match user_name with
    | none => false
    | some u => r.user_name == u

/-- `sqlite_load_messages`: `SELECT role, content FROM messages WHERE ...
ORDER BY id DESC LIMIT ?`, then `rows[::-1]` and dict construction. -/
def sqlite_load_messages (t : Table) (session_id user_name : Option String)
    (limit : Nat) : List Turn :=
  (((orderByIdDesc (t.rows.filter (sqliteWhere session_id user_name))).take limit).reverse).map
    rowToTurn

/-- The Supabase filter: `.eq("session_id", ...)` when `session_id` is truthy,
`elif user_name: .eq("user_name", ...)`, otherwise no equality filter. -/
def supaWhere (session_id user_name : Option String) (r : Row) : Bool :=
  if truthy session_id then r.session_id == session_id.getD ""
  else if truthy user_name then r.user_name == user_name.getD ""
  else true

/-- `supabase_load_messages`: returns `[]` with no client; otherwise the
filtered rows ordered by `id` descending, limited, then `data.reverse()`. -/
def supabase_load_messages (client : Bool) (t : Table)
    (session_id user_name : Option String) (limit : Nat) : List Turn :=
  if client then
    (((orderByIdDesc (t.rows.filter (supaWhere session_id user_name))).take limit).reverse).map
      rowToTurn
  else []

/-! ### Configuration resolution -/

/-- Python `a or b` for strings: `a` when non-empty, else `b`. -/
def pyOrS (a b : String) : String := if a ≠ "" then a else b

/-- Python `a or b` where `a` is an optional string (`os.getenv` result). -/
def pyOrO (a : Option String) (b : String) : String :=
  match a with
  | none => b
  | some s => pyOrS s b

/-- `st.secrets.get(key, default)`: the stored value when the key is present
(even if empty), else the default. -/
def secretsGet (secret : Option String) (default : String) : String :=
  secret.getD default

/-- `get_api_key`: `(api_key or os.getenv("OPENAI_API_KEY") or
st.secrets.get("OPENAI_API_KEY", "")).strip()`. -/
def get_api_key (api_key : String) (env : Option String) (secret : Option String) : String :=
  pyStrip (pyOrS api_key (pyOrO env (secretsGet secret "")))

/-- `get_model`: `(model or os.getenv("MODEL") or
st.secrets.get("MODEL", "gpt-4o-mini")).strip()`. -/
def get_model (model : String) (env : Option String) (secret : Option String) : String :=
  pyStrip (pyOrS model (pyOrO env (secretsGet secret "gpt-4o-mini")))

/-- The completion URL: `f"{api_base.rstrip('/')}/chat/completions"`. -/
def completion_url (api_base : String) : String :=
  rstripSlash api_base ++ "/chat/completions"

/-! ### Completion call -/

/-- Message filter for the request payload: `m["role"] in ("user", "assistant")`. -/
def is_user_or_assistant (m : Turn) : Bool :=
  m.role == "user" || m.role == "assistant"

/-- The history part of the payload `messages` field. -/
def completion_history (messages : List Turn) : List Turn :=
  messages.filter is_user_or_assistant

/-- The full payload `messages` field: live system prompt first, then the
filtered history. -/
def payload_messages (messages : List Turn) (system_prompt : String) : List Turn :=
  ⟨"system", system_prompt⟩ :: completion_history messages

/-- The value returned by `call_openai_compatible`, as a function of the
resolved key, the HTTP status and body, and the extracted
`choices[0].message.content` field. -/
def call_openai_compatible (used_key : String) (status : Nat) (body : String)
    (content : String) : String :=
  if used_key = "" then "⚠️ No API key found. Add it in the sidebar or Secrets."
  else if status ≠ 200 then "⚠️ API error " ++ toString status ++ ": " ++ pySlice body 400
  else if content = "" then "⚠️ Empty response from model."
  else content

/-! ### Session state and UI steps -/

/-- The placeholder system turn `{"role": "system", "content": "You are ALISA."}`. -/
def systemPlaceholder : Turn := ⟨"system", "You are ALISA."⟩

/-- The initial `st.session_state.messages`. -/
def initMessages : List Turn := [systemPlaceholder]

/-- The Save button's pre-filter: `[m for m in messages if m["role"] != "system"]`. -/
def msgs_to_save (messages : List Turn) : List Turn :=
  messages.filter (fun m => m.role != "system")

/-- The typed-input handler: when `user_text` is non-empty, prefix it with
`"My name is {name}. "` when a name is set, and append it as a user turn. -/
def user_text_step (name text : String) (messages : List Turn) : List Turn :=
  if text ≠ "" then
    messages ++
      [⟨"user", if name ≠ "" then "My name is " ++ name ++ ". " ++ text else text⟩]
  else messages

/-- The transcribe-and-send handler: appends the transcription as a user turn
(with the same name prefix) only when it is non-empty and not a `"⚠️"`
warning string. -/
def transcribe_send_step (name text : String) (messages : List Turn) : List Turn :=
  if text ≠ "" && !pyStartsWith text "⚠️" then
    messages ++
      [⟨"user", if name ≠ "" then "My name is " ++ name ++ ". " ++ text else text⟩]
  else messages

/-- The guard of the assistant-reply block:
`len(messages) >= 2 and messages[-1]["role"] == "user"`. -/
def should_reply (messages : List Turn) : Bool :=
  decide (2 ≤ messages.length) &&
    (match messages.getLast? with
     | some m => m.role == "user"
     | none => false)

/-- The assistant-reply block: append the reply as an assistant turn when the
guard holds. -/
def assistant_reply_step (messages : List Turn) (reply : String) : List Turn :=
  if should_reply messages then messages ++ [⟨"assistant", reply⟩] else messages

/-- The whole app state the claims range over: the in-memory list and the two
backend tables. -/
structure AppState where
  messages : List Turn
  localDb : Table
  remoteDb : Table
deriving Repr

/-- The state after `st.session_state` initialization, with untouched storage. -/
def initState : AppState := ⟨initMessages, emptyTable, emptyTable⟩

/-- One user-visible interaction, as wired in the UI code. -/
inductive Step : AppState → AppState → Prop
  | userText (s : AppState) (name text : String) :
      Step s ⟨user_text_step name text s.messages, s.localDb, s.remoteDb⟩
  | transcribe (s : AppState) (name text : String) :
      Step s ⟨transcribe_send_step name text s.messages, s.localDb, s.remoteDb⟩
  | assistantReply (s : AppState) (reply : String) :
      Step s ⟨assistant_reply_step s.messages reply, s.localDb, s.remoteDb⟩
  | saveLocal (s : AppState) (sid un : String) :
      Step s ⟨s.messages,
        sqlite_save_messages s.localDb sid un (msgs_to_save s.messages), s.remoteDb⟩
  | saveRemote (s : AppState) (client : Bool) (sid un : String) :
      Step s ⟨s.messages, s.localDb,
        supabase_save_messages client s.remoteDb sid un (msgs_to_save s.messages)⟩
  | loadLocal (s : AppState) (sid un : Option String) :
      Step s ⟨systemPlaceholder :: sqlite_load_messages s.localDb sid un 50,
        s.localDb, s.remoteDb⟩
  | loadRemote (s : AppState) (client : Bool) (sid un : Option String) :
      Step s ⟨systemPlaceholder :: supabase_load_messages client s.remoteDb sid un 50,
        s.localDb, s.remoteDb⟩

/-- States reachable from initialization by UI interactions. -/
inductive Reachable : AppState → Prop
  | init : Reachable initState
  | step {s s' : AppState} : Reachable s → Step s s' → Reachable s'

/-! ### Lemmas about saves -/

/-- The rows appended by a save of `messages`, with ids counting up from
`base`: one row per non-`system` turn, in order. -/
def newRows (sid un : String) (base : Nat) : List Turn → List Row
  | [] => []
  | m :: ms =>
      if m.role == "system" then newRows sid un base ms
      else ⟨base, sid, un, m.role, m.content⟩ :: newRows sid un (base + 1) ms

/-- The number of non-`system` turns in a list. -/
def nonSystemCount (msgs : List Turn) : Nat :=
  (msgs.filter (fun m => m.role != "system")).length

theorem sqlite_save_eq (sid un : String) (msgs : List Turn) (t : Table) :
    sqlite_save_messages t sid un msgs =
      ⟨t.rows ++ newRows sid un t.nextId msgs, t.nextId + nonSystemCount msgs⟩ := by
  induction msgs generalizing t with
  | nil => simp [sqlite_save_messages, newRows, nonSystemCount]
  | cons m ms ih =>
    rcases eq_or_ne m.role "system" with h | h
    · have hstep : sqlite_save_messages t sid un (m :: ms) =
          sqlite_save_messages t sid un ms := by
        simp [sqlite_save_messages, h]
      rw [hstep, ih]
      simp [newRows, nonSystemCount, List.filter_cons, h]
    · have hstep : sqlite_save_messages t sid un (m :: ms) =
          sqlite_save_messages (insertRow t sid un m.role m.content) sid un ms := by
        simp [sqlite_save_messages, h]
      rw [hstep, ih]
      simp [insertRow, newRows, nonSystemCount, List.filter_cons, h, Table.mk.injEq]
      omega

theorem supabase_save_true_eq (sid un : String) (msgs : List Turn) (t : Table) :
    supabase_save_messages true t sid un msgs = sqlite_save_messages t sid un msgs := by
  induction msgs generalizing t with
  | nil => rfl
  | cons m ms ih =>
    rcases eq_or_ne m.role "system" with h | h
    · have h1 : supabase_save_messages true t sid un (m :: ms) =
          supabase_save_messages true t sid un ms := by
        simp [supabase_save_messages, List.filter_cons, h]
      have h2 : sqlite_save_messages t sid un (m :: ms) =
          sqlite_save_messages t sid un ms := by
        simp [sqlite_save_messages, h]
      rw [h1, h2, ih]
    · have h1 : supabase_save_messages true t sid un (m :: ms) =
          supabase_save_messages true (insertRow t sid un m.role m.content) sid un ms := by
        simp [supabase_save_messages, List.filter_cons, h]
      have h2 : sqlite_save_messages t sid un (m :: ms) =
          sqlite_save_messages (insertRow t sid un m.role m.content) sid un ms := by
        simp [sqlite_save_messages, h]
      rw [h1, h2, ih]

theorem newRows_spec (sid un : String) (msgs : List Turn) (base : Nat) (r : Row)
    (hr : r ∈ newRows sid un base msgs) :
    r.session_id = sid ∧ r.user_name = un ∧ r.role ≠ "system" ∧ base ≤ r.id := by
  induction msgs generalizing base with
  | nil => simp [newRows] at hr
  | cons m ms ih =>
    by_cases h : m.role == "system"
    · rw [newRows, if_pos h] at hr
      exact ih base hr
    · rw [newRows, if_neg h] at hr
      rcases List.mem_cons.mp hr with rfl | hr
      · refine ⟨rfl, rfl, ?_, Nat.le_refl _⟩
        simpa using h
      · have := ih (base + 1) hr
        exact ⟨this.1, this.2.1, this.2.2.1, by omega⟩

theorem newRows_pairwise (sid un : String) (msgs : List Turn) (base : Nat) :
    List.Pairwise (fun a b : Row => a.id < b.id) (newRows sid un base msgs) := by
  induction msgs generalizing base with
  | nil => simp [newRows]
  | cons m ms ih =>
    by_cases h : m.role == "system"
    · rw [newRows, if_pos h]
      exact ih base
    · rw [newRows, if_neg h]
      refine List.Pairwise.cons ?_ (ih (base + 1))
      intro b hb
      have := (newRows_spec sid un ms (base + 1) b hb).2.2.2
      show base < b.id
      omega

theorem newRows_map (sid un : String) (msgs : List Turn) (base : Nat)
    (h : ∀ m ∈ msgs, m.role ≠ "system") :
    (newRows sid un base msgs).map rowToTurn = msgs := by
  induction msgs generalizing base with
  | nil => rfl
  | cons m ms ih =>
    have hm : (m.role == "system") = false := by
      simpa using h m (List.mem_cons_self m ms)
    rw [newRows, if_neg (by simp [hm])]
    rw [List.map_cons, ih (base + 1) (fun x hx => h x (List.mem_cons_of_mem m hx))]
    rfl

/-! ### Lemmas about the descending order and loads -/

theorem mem_insertDesc {r a : Row} {l : List Row} :
    a ∈ insertDesc r l ↔ a = r ∨ a ∈ l := by
  induction l with
  | nil => simp [insertDesc]
  | cons x xs ih =>
    by_cases h : x.id ≤ r.id
    · simp [insertDesc, h]
    · simp [insertDesc, h, ih]
      tauto

theorem mem_orderByIdDesc {a : Row} {l : List Row} (h : a ∈ orderByIdDesc l) : a ∈ l := by
  induction l with
  | nil => exact h
  | cons x xs ih =>
    rw [orderByIdDesc, List.foldr_cons] at h
    rcases mem_insertDesc.mp h with rfl | h'
    · exact List.mem_cons_self _ _
    · exact List.mem_cons_of_mem _ (ih h')

theorem insertDesc_eq_append {r : Row} {l : List Row}
    (h : ∀ x ∈ l, ¬ x.id ≤ r.id) :
    insertDesc r l = l ++ [r] := by
  induction l with
  | nil => rfl
  | cons x xs ih =>
    have hx : ¬ x.id ≤ r.id := h x (List.mem_cons_self x xs)
    rw [insertDesc, if_neg hx, ih (fun y hy => h y (List.mem_cons_of_mem x hy))]
    rfl

theorem orderByIdDesc_eq_reverse {l : List Row}
    (h : List.Pairwise (fun a b : Row => a.id < b.id) l) :
    orderByIdDesc l = l.reverse := by
  induction l with
  | nil => rfl
  | cons x xs ih =>
    rw [List.pairwise_cons] at h
    rw [orderByIdDesc, List.foldr_cons,
      show List.foldr insertDesc [] xs = orderByIdDesc xs from rfl, ih h.2,
      insertDesc_eq_append ?_, List.reverse_cons]
    intro y hy
    rw [List.mem_reverse] at hy
    have := h.1 y hy
    omega

theorem mem_sqlite_load {tb : Table} {sid un : Option String} {n : Nat} {t : Turn}
    (h : t ∈ sqlite_load_messages tb sid un n) :
    ∃ r ∈ tb.rows, sqliteWhere sid un r = true ∧ t = rowToTurn r := by
  rw [sqlite_load_messages] at h
  rcases List.mem_map.mp h with ⟨r, hr, rfl⟩
  rw [List.mem_reverse] at hr
  have hr2 := List.take_subset _ _ hr
  have hr3 := mem_orderByIdDesc hr2
  rcases List.mem_filter.mp hr3 with ⟨hmem, hpred⟩
  exact ⟨r, hmem, hpred, rfl⟩

theorem mem_supabase_load {tb : Table} {sid un : Option String} {n : Nat} {t : Turn}
    (h : t ∈ supabase_load_messages true tb sid un n) :
    ∃ r ∈ tb.rows, supaWhere sid un r = true ∧ t = rowToTurn r := by
  rw [supabase_load_messages, if_pos rfl] at h
  rcases List.mem_map.mp h with ⟨r, hr, rfl⟩
  rw [List.mem_reverse] at hr
  have hr2 := List.take_subset _ _ hr
  have hr3 := mem_orderByIdDesc hr2
  rcases List.mem_filter.mp hr3 with ⟨hmem, hpred⟩
  exact ⟨r, hmem, hpred, rfl⟩

/-! ### The conversation-store invariant -/

/-- The in-memory list begins with the placeholder system turn and holds no
other `system` turn. -/
def goodMsgs (msgs : List Turn) : Prop :=
  msgs.head? = some systemPlaceholder ∧ ∀ t ∈ msgs.tail, t.role ≠ "system"

/-- No row of the table has role `system`. -/
def goodTable (t : Table) : Prop := ∀ r ∈ t.rows, r.role ≠ "system"

theorem goodMsgs_append {msgs : List Turn} {t : Turn} (h : goodMsgs msgs)
    (ht : t.role ≠ "system") : goodMsgs (msgs ++ [t]) := by
  rcases msgs with _ | ⟨m, rest⟩
  · exact absurd h.1 (by simp)
  · obtain ⟨h1, h2⟩ := h
    refine ⟨by simpa using h1, ?_⟩
    intro x hx
    have hx' : x ∈ rest ∨ x = t := by simpa using hx
    rcases hx' with hx' | rfl
    · exact h2 x (by simpa using hx')
    · exact ht

theorem goodTable_save {tb : Table} {sid un : String} {msgs : List Turn}
    (h : goodTable tb) : goodTable (sqlite_save_messages tb sid un msgs) := by
  rw [sqlite_save_eq]
  intro r hr
  rcases List.mem_append.mp hr with hr' | hr'
  · exact h r hr'
  · exact (newRows_spec sid un msgs tb.nextId r hr').2.2.1

theorem goodTable_save_supabase {client : Bool} {tb : Table} {sid un : String}
    {msgs : List Turn} (h : goodTable tb) :
    goodTable (supabase_save_messages client tb sid un msgs) := by
  cases client
  · simpa [supabase_save_messages] using h
  · rw [supabase_save_true_eq]
    exact goodTable_save h

theorem load_no_system_sqlite {tb : Table} (h : goodTable tb)
    (sid un : Option String) (n : Nat) :
    ∀ t ∈ sqlite_load_messages tb sid un n, t.role ≠ "system" := by
  intro t ht
  rcases mem_sqlite_load ht with ⟨r, hr, _, rfl⟩
  exact h r hr

theorem load_no_system_supabase {tb : Table} (h : goodTable tb) (client : Bool)
    (sid un : Option String) (n : Nat) :
    ∀ t ∈ supabase_load_messages client tb sid un n, t.role ≠ "system" := by
  cases client
  · intro t ht
    simp [supabase_load_messages] at ht
  · intro t ht
    rcases mem_supabase_load ht with ⟨r, hr, _, rfl⟩
    exact h r hr

/-- Claim C1: in every reachable state, the in-memory turn list begins with
exactly one `system` turn (the placeholder) at index 0, and no save ever
writes a `system` turn to either storage backend (neither table ever holds a
`system` row). -/
theorem c1_system_invariant (s : AppState) (h : Reachable s) :
    goodMsgs s.messages ∧ goodTable s.localDb ∧ goodTable s.remoteDb := by
  induction h with
  | init =>
    refine ⟨⟨rfl, ?_⟩, ?_, ?_⟩
    · intro t ht
      simp [initState, initMessages] at ht
    · intro r hr
      simp [initState, emptyTable] at hr
    · intro r hr
      simp [initState, emptyTable] at hr
  | step hr hstep ih =>
    obtain ⟨hm, hl, hrm⟩ := ih
    cases hstep with
    | userText name text =>
      refine ⟨?_, hl, hrm⟩
      show goodMsgs (user_text_step name text _)
      unfold user_text_step
      split
      · exact goodMsgs_append hm (by simp)
      · exact hm
    | transcribe name text =>
      refine ⟨?_, hl, hrm⟩
      show goodMsgs (transcribe_send_step name text _)
      unfold transcribe_send_step
      split
      · exact goodMsgs_append hm (by simp)
      · exact hm
    | assistantReply reply =>
      refine ⟨?_, hl, hrm⟩
      show goodMsgs (assistant_reply_step _ reply)
      unfold assistant_reply_step
      split
      · exact goodMsgs_append hm (by simp)
      · exact hm
    | saveLocal sid un =>
      exact ⟨hm, goodTable_save hl, hrm⟩
    | saveRemote client sid un =>
      exact ⟨hm, hl, goodTable_save_supabase hrm⟩
    | loadLocal sid un =>
      exact ⟨⟨rfl, load_no_system_sqlite hl sid un 50⟩, hl, hrm⟩
    | loadRemote client sid un =>
      exact ⟨⟨rfl, load_no_system_supabase hrm client sid un 50⟩, hl, hrm⟩

/-- Witness for C1 at the concrete state reached by typing "hello" with the
name "Kamran" set. -/
theorem c1_system_invariant_witness :
    goodMsgs (user_text_step "Kamran" "hello" initMessages) ∧
      goodTable emptyTable ∧ goodTable emptyTable :=
  c1_system_invariant
    ⟨user_text_step "Kamran" "hello" initMessages, emptyTable, emptyTable⟩
    (Reachable.step Reachable.init (Step.userText initState "Kamran" "hello"))

/-- Claim C3: the payload `messages` field built for a completion call sends
the live system prompt first and then exactly the `user`/`assistant` turns of
the appended history, in order, with the stored placeholder excluded. -/
theorem c3_history_for_completion (appended : List Turn) (prompt : String) :
    payload_messages (initMessages ++ appended) prompt =
      ⟨"system", prompt⟩ :: appended.filter is_user_or_assistant := by
  simp [payload_messages, completion_history, initMessages, systemPlaceholder,
    List.filter_cons, is_user_or_assistant]

/-- Claim C5: loading with `limit = n` returns at most `n` turns from either
backend, whatever the storage state. -/
theorem c5_limit_cap (tb : Table) (sid un : Option String) (n : Nat) (client : Bool) :
    (sqlite_load_messages tb sid un n).length ≤ n ∧
      (supabase_load_messages client tb sid un n).length ≤ n := by
  constructor
  · simp [sqlite_load_messages, List.length_take]
  · cases client
    · simp [supabase_load_messages]
    · simp [supabase_load_messages, List.length_take]

/-- Claim C9: when a non-empty name is set, both input handlers store the
user turn with content prefixed by "My name is {name}. "; with an empty name
the content is stored unchanged. -/
theorem c9_name_applied (name text : String) (msgs : List Turn)
    (hn : name ≠ "") (ht : text ≠ "") :
    user_text_step name text msgs =
        msgs ++ [⟨"user", "My name is " ++ name ++ ". " ++ text⟩] ∧
      (pyStartsWith text "⚠️" = false →
        transcribe_send_step name text msgs =
          msgs ++ [⟨"user", "My name is " ++ name ++ ". " ++ text⟩]) ∧
      user_text_step "" text msgs = msgs ++ [⟨"user", text⟩] ∧
      (pyStartsWith text "⚠️" = false →
        transcribe_send_step "" text msgs = msgs ++ [⟨"user", text⟩]) := by
  refine ⟨?_, ?_, ?_, ?_⟩
  · simp [user_text_step, ht, hn]
  · intro hw
    simp [transcribe_send_step, ht, hn, hw]
  · simp [user_text_step, ht]
  · intro hw
    simp [transcribe_send_step, ht, hw]

/-- Witness for C9 with name "Kamran" and the message "hello". -/
theorem c9_name_applied_witness :
    user_text_step "Kamran" "hello" initMessages =
        initMessages ++ [⟨"user", "My name is " ++ "Kamran" ++ ". " ++ "hello"⟩] ∧
      transcribe_send_step "Kamran" "hello" initMessages =
        initMessages ++ [⟨"user", "My name is " ++ "Kamran" ++ ". " ++ "hello"⟩] :=
  ⟨(c9_name_applied "Kamran" "hello" initMessages (by decide) (by decide)).1,
    (c9_name_applied "Kamran" "hello" initMessages (by decide) (by decide)).2.1 (by decide)⟩

/-- Claim C2 counterexample: the round-trip fails as universally stated.
Saving 51 turns and loading with the default limit 50 drops the oldest turn,
and saving under the empty session id then loading by it returns nothing
(the empty string is falsy, so the load falls through to the `NULL`
user-name filter). -/
theorem c2_counterexample :
    sqlite_load_messages
        (sqlite_save_messages emptyTable "s" "u" (List.replicate 51 ⟨"user", "hi"⟩))
        (some "s") none 50 ≠ List.replicate 51 ⟨"user", "hi"⟩ ∧
      sqlite_load_messages
        (sqlite_save_messages emptyTable "" "u" [⟨"user", "hi"⟩])
        (some "") none 50 ≠ [⟨"user", "hi"⟩] := by
  decide

/-- Claim C2 (amended): for every non-empty list of at most 50 non-system
turns and non-empty session id, save-then-load by that session id on
initially empty storage returns the same (role, content) pairs in the same
oldest-first order, on both backends. -/
theorem c2_roundtrip (msgs : List Turn) (s u : String) (un : Option String)
    (_hne : msgs ≠ []) (hs : s ≠ "") (hlen : msgs.length ≤ 50)
    (hroles : ∀ m ∈ msgs, m.role ≠ "system") :
    sqlite_load_messages (sqlite_save_messages emptyTable s u msgs) (some s) un 50 =
        msgs ∧
      supabase_load_messages true (supabase_save_messages true emptyTable s u msgs)
        (some s) un 50 = msgs := by
  have hsave : sqlite_save_messages emptyTable s u msgs =
      ⟨newRows s u 0 msgs, nonSystemCount msgs⟩ := by
    rw [sqlite_save_eq]
    simp [emptyTable]
  have hlen' : (newRows s u 0 msgs).length ≤ 50 := by
    have hmap := congrArg List.length (newRows_map s u msgs 0 hroles)
    rw [List.length_map] at hmap
    omega
  have horder : orderByIdDesc (newRows s u 0 msgs) = (newRows s u 0 msgs).reverse :=
    orderByIdDesc_eq_reverse (newRows_pairwise s u msgs 0)
  constructor
  · rw [hsave]
    show (((orderByIdDesc ((newRows s u 0 msgs).filter (sqliteWhere (some s) un))).take
      50).reverse).map rowToTurn = msgs
    have hfilter : (newRows s u 0 msgs).filter (sqliteWhere (some s) un) =
        newRows s u 0 msgs := by
      refine List.filter_eq_self.mpr ?_
      intro r hr
      have := (newRows_spec s u msgs 0 r hr).1
      simp [sqliteWhere, truthy, hs, this]
    rw [hfilter, horder, List.take_of_length_le (by simpa using hlen'),
      List.reverse_reverse]
    exact newRows_map s u msgs 0 hroles
  · rw [supabase_save_true_eq, hsave]
    show (((orderByIdDesc ((newRows s u 0 msgs).filter (supaWhere (some s) un))).take
      50).reverse).map rowToTurn = msgs
    have hfilter : (newRows s u 0 msgs).filter (supaWhere (some s) un) =
        newRows s u 0 msgs := by
      refine List.filter_eq_self.mpr ?_
      intro r hr
      have := (newRows_spec s u msgs 0 r hr).1
      simp [supaWhere, truthy, hs, this]
    rw [hfilter, horder, List.take_of_length_le (by simpa using hlen'),
      List.reverse_reverse]
    exact newRows_map s u msgs 0 hroles

/-- Witness for C2 (amended) with a two-turn conversation. -/
theorem c2_roundtrip_witness :
    sqlite_load_messages
        (sqlite_save_messages emptyTable "s1" "" [⟨"user", "hi"⟩, ⟨"assistant", "yo"⟩])
        (some "s1") none 50 = [⟨"user", "hi"⟩, ⟨"assistant", "yo"⟩] ∧
      supabase_load_messages true
        (supabase_save_messages true emptyTable "s1" ""
          [⟨"user", "hi"⟩, ⟨"assistant", "yo"⟩])
        (some "s1") none 50 = [⟨"user", "hi"⟩, ⟨"assistant", "yo"⟩] :=
  c2_roundtrip [⟨"user", "hi"⟩, ⟨"assistant", "yo"⟩] "s1" "" none
    (by decide) (by decide) (by decide) (by decide)

/-- Claim C4 counterexample: with an empty explicit model, no environment
value and a `MODEL` secret that is present but empty, resolution yields the
empty string, not the hardcoded default, so the claimed first-non-empty
precedence over explicit/env/secret/default does not hold of the code. -/
theorem c4_counterexample :
    get_model "" none (some "") = "" ∧ get_model "" none (some "") ≠ "gpt-4o-mini" := by
  decide

/-- Claim C4 (amended): first-non-empty precedence over explicit value, then
environment variable, then secrets lookup, each resolved value stripped; for
`model` the hardcoded default is only the secrets-lookup fallback, used when
the `MODEL` secret key is absent — a present-but-empty secret wins the chain
and resolves to the empty string. -/
theorem c4_resolution (e v w : String) :
    (e ≠ "" → get_api_key e (some v) (some w) = pyStrip e ∧
      get_model e (some v) (some w) = pyStrip e) ∧
    (v ≠ "" → get_api_key "" (some v) (some w) = pyStrip v ∧
      get_model "" (some v) (some w) = pyStrip v) ∧
    (get_api_key "" (some "") (some w) = pyStrip w ∧
      get_model "" (some "") (some w) = pyStrip w) ∧
    (get_api_key "" none (some w) = pyStrip w ∧
      get_model "" none (some w) = pyStrip w) ∧
    (get_api_key "" none none = "" ∧ get_model "" none none = "gpt-4o-mini") := by
  refine ⟨?_, ?_, ?_, ?_, ?_⟩
  · intro he
    constructor <;> simp [get_api_key, get_model, pyOrS, pyOrO, secretsGet, he]
  · intro hv
    constructor <;> simp [get_api_key, get_model, pyOrS, pyOrO, secretsGet, hv]
  · constructor <;> simp [get_api_key, get_model, pyOrS, pyOrO, secretsGet]
  · constructor <;> simp [get_api_key, get_model, pyOrS, pyOrO, secretsGet]
  · constructor <;> decide

/-- Witness for C4 (amended), matching the spec's own examples. -/
theorem c4_resolution_witness :
    get_api_key "Z" (some "X") (some "Y") = pyStrip "Z" ∧
      get_api_key "" (some "X") (some "Y") = pyStrip "X" :=
  ⟨((c4_resolution "Z" "X" "Y").1 (by decide)).1,
    ((c4_resolution "Z" "X" "Y").2.1 (by decide)).1⟩

/-- Claim C6: on a non-200 status, the completion call returns (not raises)
the warning string embedding the status code and the body truncated to at
most 400 characters, and the assistant-reply block appends exactly that
string as the assistant turn. -/
theorem c6_api_error (key body content : String) (status : Nat) (msgs : List Turn)
    (hkey : key ≠ "") (hstatus : status ≠ 200) (hlast : should_reply msgs = true) :
    call_openai_compatible key status body content =
        "⚠️ API error " ++ toString status ++ ": " ++ pySlice body 400 ∧
      (pySlice body 400).length ≤ 400 ∧
      assistant_reply_step msgs (call_openai_compatible key status body content) =
        msgs ++ [⟨"assistant",
          "⚠️ API error " ++ toString status ++ ": " ++ pySlice body 400⟩] := by
  have h1 : call_openai_compatible key status body content =
      "⚠️ API error " ++ toString status ++ ": " ++ pySlice body 400 := by
    simp [call_openai_compatible, hkey, hstatus]
  refine ⟨h1, ?_, ?_⟩
  · show (body.data.take 400).length ≤ 400
    simp [List.length_take]
  · rw [h1]
    simp [assistant_reply_step, hlast]

/-- Witness for C6: HTTP 500 with body "server error" on a conversation
ending in a user turn. -/
theorem c6_api_error_witness :
    call_openai_compatible "k" 500 "server error" "" =
        "⚠️ API error " ++ toString 500 ++ ": " ++ pySlice "server error" 400 ∧
      (pySlice "server error" 400).length ≤ 400 ∧
      assistant_reply_step [systemPlaceholder, ⟨"user", "hi"⟩]
          (call_openai_compatible "k" 500 "server error" "") =
        [systemPlaceholder, ⟨"user", "hi"⟩] ++ [⟨"assistant",
          "⚠️ API error " ++ toString 500 ++ ": " ++ pySlice "server error" 400⟩] :=
  c6_api_error "k" "server error" "" 500 [systemPlaceholder, ⟨"user", "hi"⟩]
    (by decide) (by decide) (by decide)

/-- Claim C7 counterexample: with both `session_id` and `user_name` absent,
the Remote backend applies no equality filter at all — it returns a stored
row whose `user_name` is "alice" even though no user name was queried — while
the Local backend's `user_name = NULL` filter returns nothing. -/
theorem c7_counterexample :
    supabase_load_messages true ⟨[⟨1, "s1", "alice", "user", "hi"⟩], 2⟩ none none 50 =
        [⟨"user", "hi"⟩] ∧
      sqlite_load_messages ⟨[⟨1, "s1", "alice", "user", "hi"⟩], 2⟩ none none 50 = [] := by
  decide

/-- Claim C7 (amended): a non-empty `session_id` is the filter and
`user_name` is ignored on both backends; with `session_id` empty or absent
and a non-empty `user_name`, both backends filter by `user_name`; only when
both are empty or absent does the Remote backend stop filtering (and the
Local backend's `NULL` filter matches nothing). -/
theorem c7_filter_selection (tb : Table) (s u : String) (un : Option String)
    (n : Nat) (hs : s ≠ "") (hu : u ≠ "") :
    (∀ un', sqlite_load_messages tb (some s) un n =
        sqlite_load_messages tb (some s) un' n) ∧
    (∀ un', supabase_load_messages true tb (some s) un n =
        supabase_load_messages true tb (some s) un' n) ∧
    (∀ t ∈ sqlite_load_messages tb (some s) un n,
        ∃ r ∈ tb.rows, r.session_id = s ∧ t = rowToTurn r) ∧
    (∀ t ∈ supabase_load_messages true tb (some s) un n,
        ∃ r ∈ tb.rows, r.session_id = s ∧ t = rowToTurn r) ∧
    (∀ t ∈ sqlite_load_messages tb none (some u) n,
        ∃ r ∈ tb.rows, r.user_name = u ∧ t = rowToTurn r) ∧
    (∀ t ∈ supabase_load_messages true tb none (some u) n,
        ∃ r ∈ tb.rows, r.user_name = u ∧ t = rowToTurn r) ∧
    (sqlite_load_messages tb none none n = []) := by
  have hsql : ∀ un' r, sqliteWhere (some s) un' r = (r.session_id == s) := by
    intro un' r
    simp [sqliteWhere, truthy, hs]
  have hsupa : ∀ un' r, supaWhere (some s) un' r = (r.session_id == s) := by
    intro un' r
    simp [supaWhere, truthy, hs]
  refine ⟨?_, ?_, ?_, ?_, ?_, ?_, ?_⟩
  · intro un'
    unfold sqlite_load_messages
    rw [List.filter_congr (fun r _ => hsql un r), List.filter_congr (fun r _ => hsql un' r)]
  · intro un'
    unfold supabase_load_messages
    rw [if_pos rfl, if_pos rfl,
      List.filter_congr (fun r _ => hsupa un r), List.filter_congr (fun r _ => hsupa un' r)]
  · intro t ht
    rcases mem_sqlite_load ht with ⟨r, hr, hpred, rfl⟩
    rw [hsql un r] at hpred
    exact ⟨r, hr, by simpa using hpred, rfl⟩
  · intro t ht
    rcases mem_supabase_load ht with ⟨r, hr, hpred, rfl⟩
    rw [hsupa un r] at hpred
    exact ⟨r, hr, by simpa using hpred, rfl⟩
  · intro t ht
    rcases mem_sqlite_load ht with ⟨r, hr, hpred, rfl⟩
    simp [sqliteWhere, truthy] at hpred
    exact ⟨r, hr, hpred, rfl⟩
  · intro t ht
    rcases mem_supabase_load ht with ⟨r, hr, hpred, rfl⟩
    simp [supaWhere, truthy, hu] at hpred
    exact ⟨r, hr, hpred, rfl⟩
  · unfold sqlite_load_messages
    rw [show tb.rows.filter (sqliteWhere none none) = [] from
      List.filter_eq_nil_iff.mpr (fun r _ => by simp [sqliteWhere, truthy])]
    simp [orderByIdDesc]

/-- Witness for C7 (amended): the `user_name` argument is ignored when a
session id is given. -/
theorem c7_filter_selection_witness :
    sqlite_load_messages ⟨[⟨1, "s1", "alice", "user", "hi"⟩], 2⟩
        (some "s1") (some "bob") 50 =
      sqlite_load_messages ⟨[⟨1, "s1", "alice", "user", "hi"⟩], 2⟩ (some "s1") none 50 :=
  (c7_filter_selection ⟨[⟨1, "s1", "alice", "user", "hi"⟩], 2⟩ "s1" "bob"
    (some "bob") 50 (by decide) (by decide)).1 none

theorem rstripSlash_eq_self {s : String} (hs : s.data.getLast? ≠ some '/') :
    rstripSlash s = s := by
  have hdata : (s.data.reverse.dropWhile (fun c => c == '/')).reverse = s.data := by
    rcases hr : s.data.reverse with _ | ⟨a, as⟩
    · rw [List.reverse_eq_nil_iff.mp hr]
      rfl
    · have hgl : s.data.getLast? = some a := by
        rw [← List.head?_reverse, hr]
        rfl
      have hne : (a == '/') = false := by
        have ha : a ≠ '/' := fun h => hs (by rw [hgl, h])
        simpa using ha
      rw [List.dropWhile_cons, hne]
      simp only [Bool.false_eq_true, if_false]
      rw [← hr, List.reverse_reverse]
  exact congrArg String.mk hdata

/-- Claim C8 counterexample: a base URL with surrounding whitespace is used
untrimmed — `rstrip('/')` removes only trailing slashes — so the request URL
is not built from the trimmed input. -/
theorem c8_counterexample :
    completion_url " http://x" = " http://x/chat/completions" ∧
      pyStrip " http://x" = "http://x" ∧
      completion_url " http://x" ≠ pyStrip " http://x" ++ "/chat/completions" := by
  decide

/-- Claim C8 (amended): the resolved `api_key` and `model` are stripped of
surrounding whitespace before use, but `base_url` is not — only trailing
`'/'` characters are removed from it before appending the endpoint path, so
any surrounding whitespace survives in the request URL. -/
theorem c8_trimming (e b : String) (env sec : Option String)
    (he : e ≠ "") (hb : b.data.getLast? ≠ some '/') :
    get_api_key e env sec = pyStrip e ∧ get_model e env sec = pyStrip e ∧
      completion_url b = b ++ "/chat/completions" := by
  refine ⟨?_, ?_, ?_⟩
  · simp [get_api_key, pyOrS, he]
  · simp [get_model, pyOrS, he]
  · rw [completion_url, rstripSlash_eq_self hb]

/-- Witness for C8 (amended) at a whitespace-padded key and the default base
URL. -/
theorem c8_trimming_witness :
    get_api_key " k1 " none none = pyStrip " k1 " ∧
      get_model " k1 " none none = pyStrip " k1 " ∧
      completion_url "https://api.openai.com/v1" =
        "https://api.openai.com/v1" ++ "/chat/completions" :=
  c8_trimming " k1 " "https://api.openai.com/v1" none none (by decide) (by decide)

/-- Claim C10 counterexample: with `session_id` absent and `user_name` the
empty string (the app's state when no name was entered), the Local backend
does not return the empty list — the SQL binds `''`, not `NULL`, and matches
rows saved with an empty user name. -/
theorem c10_counterexample :
    sqlite_load_messages ⟨[⟨1, "s1", "", "user", "hi"⟩], 2⟩ none (some "") 50 =
      [⟨"user", "hi"⟩] := by
  decide

/-- Claim C10 (amended): with both selectors empty the backends diverge.
When `user_name` is absent (`None`), the Local backend's `user_name = NULL`
filter returns the empty list; when it is the empty string the Local backend
matches exactly the rows stored with an empty user name.  The Remote backend
applies no equality filter in either case and returns up to `limit` rows
drawn from every session and user in the table. -/
theorem c10_backend_divergence (tb : Table) (n : Nat) :
    sqlite_load_messages tb none none n = [] ∧
      (∀ t ∈ sqlite_load_messages tb none (some "") n,
        ∃ r ∈ tb.rows, r.user_name = "" ∧ t = rowToTurn r) ∧
      supabase_load_messages true tb none none n =
        ((orderByIdDesc tb.rows).take n).reverse.map rowToTurn ∧
      supabase_load_messages true tb none (some "") n =
        ((orderByIdDesc tb.rows).take n).reverse.map rowToTurn := by
  refine ⟨?_, ?_, ?_, ?_⟩
  · unfold sqlite_load_messages
    rw [show tb.rows.filter (sqliteWhere none none) = [] from
      List.filter_eq_nil_iff.mpr (fun r _ => by simp [sqliteWhere, truthy])]
    simp [orderByIdDesc]
  · intro t ht
    rcases mem_sqlite_load ht with ⟨r, hr, hpred, rfl⟩
    simp [sqliteWhere, truthy] at hpred
    exact ⟨r, hr, hpred, rfl⟩
  · unfold supabase_load_messages
    rw [if_pos rfl,
      show tb.rows.filter (supaWhere none none) = tb.rows from
        List.filter_eq_self.mpr (fun r _ => by simp [supaWhere, truthy])]
  · unfold supabase_load_messages
    rw [if_pos rfl,
      show tb.rows.filter (supaWhere none (some "")) = tb.rows from
        List.filter_eq_self.mpr (fun r _ => by simp [supaWhere, truthy])]

/-- Witness for C10 at a one-row table stored under user "alice". -/
theorem c10_backend_divergence_witness :
    sqlite_load_messages ⟨[⟨1, "s1", "alice", "user", "hi"⟩], 2⟩ none none 50 = [] ∧
      supabase_load_messages true ⟨[⟨1, "s1", "alice", "user", "hi"⟩], 2⟩ none none 50 =
        ((orderByIdDesc [⟨1, "s1", "alice", "user", "hi"⟩]).take 50).reverse.map rowToTurn :=
  ⟨(c10_backend_divergence ⟨[⟨1, "s1", "alice", "user", "hi"⟩], 2⟩ 50).1,
    (c10_backend_divergence ⟨[⟨1, "s1", "alice", "user", "hi"⟩], 2⟩ 50).2.2.1⟩

end Alisa
